import Mathlib

/-!
Verification development for the Gaming Hub browser-game collection.

The games are small JavaScript programs driven by global mutable state and
interval or timeout callbacks.  Each game's state is embedded here as a Lean
structure, and each JavaScript function that mutates the globals becomes a
Lean function from state to state.  Rendering code (canvas drawing, DOM text
updates, the decorative cloud layer of the Endless Runner) produces no game
state consumed by any game rule and is outside the model; `localStorage`
writes are modelled by a `storedHighScore` field carried in each state.

Randomness: `Math.random()` returns a value in the half-open interval [0, 1).
It is embedded as a fraction `num / den` with `num < den`, so that
`Math.floor(Math.random() * k)` becomes the natural-number expression
`num * k / den`.  A sequence of random draws is passed in as explicit
arguments or as a list that the function consumes.

Loops that repeatedly draw random values until a condition holds (the food
placement loop of Snake) are embedded as a search over the supplied list of
draws, returning `Option`: `none` means the supplied draws were exhausted
before the loop condition was met.
-/

namespace GamingHub

/-! ## JavaScript values and the high-score loading idiom -/

/-- Result of a JavaScript expression that can be either a number or a string. -/
inductive JSValue where
  | num (n : Int)
  | str (s : String)
deriving DecidableEq, Repr

/-- Embedding of the idiom `localStorage.getItem(key) || 0` shared by Snake,
Endless Runner and Whack-a-Mole.  `getItem` yields `null` when the key is
absent; `null` and the empty string are the only relevant falsy values, so
`|| 0` replaces them by the number `0`, while every other stored string is
truthy and is kept verbatim as a string. -/
def loadHighScore (stored : Option String) : JSValue :=
  match stored with
  | none => JSValue.num 0
  | some s => if s = "" then JSValue.num 0 else JSValue.str s

/-- A stored string parses as a non-negative decimal integer: nonempty and
all digits.  This is the shape the games themselves persist (decimal score
values), used to state what a malformed stored value is. -/
def isDecimalNat (s : String) : Bool :=
  !s.data.isEmpty &&
    s.data.all (fun c => decide (Char.toNat '0' ≤ c.toNat ∧ c.toNat ≤ Char.toNat '9'))

/-! ## Snake (src/unnamed/part_001) -/

/-- Movement directions of the snake. -/
inductive Dir where
  | up
  | down
  | left
  | right
deriving DecidableEq, Repr

/-- Direction opposite to a given one; used to express the no-reversal rule. -/
def Dir.opposite : Dir → Dir
  | .up => .down
  | .down => .up
  | .left => .right
  | .right => .left

/-- Keyboard keys distinguished by the Snake input handler. -/
inductive Key where
  | arrowUp
  | arrowDown
  | arrowLeft
  | arrowRight
  | other
deriving DecidableEq, Repr

/-- Direction an arrow key requests, if any. -/
def toDir : Key → Option Dir
  | .arrowUp => some Dir.up
  | .arrowDown => some Dir.down
  | .arrowLeft => some Dir.left
  | .arrowRight => some Dir.right
  | .other => none

/-- A grid cell.  Coordinates are integers: the computed next head position can
leave the grid (that is what the wall-collision check detects). -/
structure Pos where
  x : Int
  y : Int
deriving DecidableEq, Repr

/-- Global state of the Snake game.  `gridW` and `gridH` stand for
`canvas.width / 10` and `canvas.height / 10`; `timerActive` records whether the
`setInterval` game loop is scheduled; `storedHighScore` is the value persisted
under the key `snakeHighScore`. -/
structure SnakeState where
  snake : List Pos
  food : Pos
  direction : Dir
  newDirection : Dir
  gameRunning : Bool
  score : Nat
  highScore : Nat
  storedHighScore : Nat
  timerActive : Bool
  gridW : Int
  gridH : Int
deriving DecidableEq, Repr

/-- The snake created by `startGame`. -/
def initialSnake : List Pos := [⟨10, 10⟩, ⟨9, 10⟩, ⟨8, 10⟩]

/-- Keyboard handler `changeDirection`: each arrow key overwrites
`newDirection` unless the requested direction is the opposite of the current
`direction`. -/
def changeDirection (key : Key) (s : SnakeState) : SnakeState :=
  if key = Key.arrowUp ∧ s.direction ≠ Dir.down then
    { s with newDirection := Dir.up }
  else if key = Key.arrowDown ∧ s.direction ≠ Dir.up then
    { s with newDirection := Dir.down }
  else if key = Key.arrowLeft ∧ s.direction ≠ Dir.right then
    { s with newDirection := Dir.left }
  else if key = Key.arrowRight ∧ s.direction ≠ Dir.left then
    { s with newDirection := Dir.right }
  else s

/-- The new head cell obtained by stepping one cell in the given direction. -/
def stepHead (d : Dir) (p : Pos) : Pos :=
  match d with
  | .up => { p with y := p.y - 1 }
  | .down => { p with y := p.y + 1 }
  | .left => { p with x := p.x - 1 }
  | .right => { p with x := p.x + 1 }

/-- Function `checkCollision`: the candidate head hits a wall, or coincides
with a body segment (segments from index 1 on, head excluded). -/
def checkCollision (s : SnakeState) (head : Pos) : Bool :=
  decide (head.x < 0) || decide (s.gridW ≤ head.x) ||
  decide (head.y < 0) || decide (s.gridH ≤ head.y) ||
  (s.snake.drop 1).any (fun seg => decide (seg = head))

/-- Function `createFood`: draw random grid cells until one misses every snake
segment.  The supplied list is the stream of random draws; the first draw not
on the snake is the new food, `none` means the stream ran out first. -/
def createFood (cands : List Pos) (snake : List Pos) : Option Pos :=
  cands.find? (fun c => !(snake.any (fun seg => decide (seg = c))))

/-- Function `gameOver`: stop the interval timer and clear the running flag. -/
def snakeGameOver (s : SnakeState) : SnakeState :=
  { s with timerActive := false, gameRunning := false }

/-- The `setInterval` tick callback `gameUpdate`.  It commits the queued
direction, computes the new head, ends the game on collision, otherwise grows
the snake at the head and either consumes the food (score and high-score
update, new food via `createFood`) or removes the tail.  `none` arises only
when `createFood` exhausts its supplied draws or the snake list is empty
(unreachable from `startGame`, where JavaScript would read `undefined`). -/
def snakeGameUpdate (s : SnakeState) (cands : List Pos) : Option SnakeState :=
  let s1 := { s with direction := s.newDirection }
  match s1.snake with
  | [] => none
  | h :: _ =>
    let head := stepHead s1.direction h
    if checkCollision s1 head then
      some (snakeGameOver s1)
    else
      let snake1 := head :: s1.snake
      if head = s1.food then
        let score1 := s1.score + 1
        let hs : Nat × Nat :=
          if s1.highScore < score1 then (score1, score1)
          else (s1.highScore, s1.storedHighScore)
        (createFood cands snake1).map (fun f =>
          { s1 with snake := snake1, score := score1,
                    highScore := hs.1, storedHighScore := hs.2, food := f })
      else
        some { s1 with snake := snake1.dropLast }

/-- Function `startGame` of Snake: a no-op while running, otherwise rebuild the
snake, place food, zero the score, face right, and start the interval timer. -/
def snakeStartGame (s : SnakeState) (cands : List Pos) : Option SnakeState :=
  if s.gameRunning then some s
  else
    (createFood cands initialSnake).map (fun f =>
      { s with snake := initialSnake, food := f, score := 0,
               direction := Dir.right, newDirection := Dir.right,
               gameRunning := true, timerActive := true })

/-- Function `resetGame` of Snake: clear the interval timer, stop, zero the
score.  Snake body, food and directions are left as they were. -/
def snakeResetGame (s : SnakeState) : SnakeState :=
  { s with timerActive := false, gameRunning := false, score := 0 }

/-- A position is on the playable grid. -/
def inGrid (s : SnakeState) (p : Pos) : Prop :=
  0 ≤ p.x ∧ p.x < s.gridW ∧ 0 ≤ p.y ∧ p.y < s.gridH

/-- A concrete running Snake session (the state right after `startGame` with
food at (20, 20), on the 400 by 400 canvas). -/
def snakeDemoRunning : SnakeState :=
  { snake := initialSnake, food := ⟨20, 20⟩,
    direction := Dir.right, newDirection := Dir.right,
    gameRunning := true, score := 0, highScore := 0, storedHighScore := 0,
    timerActive := true, gridW := 40, gridH := 40 }

/-! ## Whack-a-Mole (src/js/whack-a-mole.js) -/

/-- One mole element, abstracted to its two CSS classes. -/
structure Mole where
  active : Bool
  whacked : Bool
deriving DecidableEq, Repr

/-- Global state of Whack-a-Mole.  `gameTimerActive` and `moleTimerActive`
record whether the countdown interval and the single-slot mole timeout are
scheduled; `storedHighScore` is the value persisted under `whackHighScore`. -/
structure WhackState where
  score : Nat
  timeLeft : Int
  gameRunning : Bool
  gameTimerActive : Bool
  moleTimerActive : Bool
  highScore : Nat
  storedHighScore : Nat
  moles : List Mole
deriving DecidableEq, Repr

/-- The loop hiding every mole (classes `active` and `whacked` removed). -/
def clearMoles (moles : List Mole) : List Mole :=
  moles.map (fun _ => { active := false, whacked := false })

/-- Embedding of `Math.floor(Math.random() * len)` with the random value
`num / den`. -/
def randomIndex (num den len : Nat) : Nat := num * len / den

/-- Embedding of the duration draw of `showRandomMole`:
`Math.floor(Math.random() * (1500 - 600)) + 600` with the random value
`num / den`. -/
def randomTime (num den : Nat) : Nat := num * (1500 - 600) / den + 600

/-- Function `showRandomMole`: hide every mole, then activate the one at the
randomly drawn index, and schedule the single-slot timeout. -/
def showRandomMole (s : WhackState) (num den : Nat) : WhackState :=
  let cleared := clearMoles s.moles
  let idx := randomIndex num den s.moles.length
  { s with moles := cleared.set idx { active := true, whacked := false },
           moleTimerActive := true }

/-- The deferred callback that `showRandomMole` schedules with `setTimeout`:
it rotates to the next mole only when the running flag is still set. -/
def moleTimerCallback (s : WhackState) (num den : Nat) : WhackState :=
  if s.gameRunning then showRandomMole s num den else s

/-- Function `whackMole`: increment the score, mark the clicked mole whacked
and inactive, and push the score into the stored high score when it strictly
exceeds it. -/
def whackMole (s : WhackState) (idx : Nat) : WhackState :=
  let score1 := s.score + 1
  let moles1 :=
    match s.moles.get? idx with
    | some m => s.moles.set idx { m with whacked := true, active := false }
    | none => s.moles
  if s.highScore < score1 then
    { s with score := score1, moles := moles1,
             highScore := score1, storedHighScore := score1 }
  else
    { s with score := score1, moles := moles1 }

/-- The click listener wrapping `whackMole`: it only fires while the game runs
and the clicked mole is active and not yet whacked. -/
def moleClick (s : WhackState) (idx : Nat) : WhackState :=
  match s.moles.get? idx with
  | some m =>
    if s.gameRunning && m.active && !m.whacked then whackMole s idx else s
  | none => s

/-- Function `endGame` of Whack-a-Mole: clear both timers and stop. -/
def whackEndGame (s : WhackState) : WhackState :=
  { s with gameTimerActive := false, moleTimerActive := false,
           gameRunning := false }

/-- Function `resetGame` of Whack-a-Mole: clear both timers, zero the score,
restore the 30 second clock, stop, and hide every mole. -/
def whackResetGame (s : WhackState) : WhackState :=
  { s with gameTimerActive := false, moleTimerActive := false,
           score := 0, timeLeft := 30, gameRunning := false,
           moles := clearMoles s.moles }

/-- The countdown interval callback of `startGame`: decrement the clock and
end the game when it reaches zero.  It does not consult the running flag. -/
def whackCountdownTick (s : WhackState) : WhackState :=
  let s1 := { s with timeLeft := s.timeLeft - 1 }
  if s1.timeLeft ≤ 0 then whackEndGame s1 else s1

/-- Function `startGame` of Whack-a-Mole: a no-op while running, otherwise
reset, raise the running flag, start the countdown interval and show the
first mole. -/
def whackStartGame (s : WhackState) (num den : Nat) : WhackState :=
  if s.gameRunning then s
  else
    let s1 := whackResetGame s
    let s2 := { s1 with gameRunning := true, gameTimerActive := true }
    showRandomMole s2 num den

/-- A run of successful whacks: `whackMole` applied once per listed index. -/
def whackRun (s : WhackState) (idxs : List Nat) : WhackState :=
  idxs.foldl whackMole s

/-- A concrete running Whack-a-Mole session with a stored high score of 3. -/
def whackDemoRunning : WhackState :=
  { score := 0, timeLeft := 30, gameRunning := true,
    gameTimerActive := true, moleTimerActive := true,
    highScore := 3, storedHighScore := 3,
    moles := List.replicate 9 { active := false, whacked := false } }

/-! ## Image Puzzle (src/js/puzzle.js) -/

/-- One puzzle tile element: whether it carries the `empty` class, and which
image piece its inner div shows.  The piece is identified by the (row, col)
the background-position formula was generated from; `none` is a tile with no
inner image div (the blank). -/
structure Tile where
  empty : Bool
  content : Option (Nat × Nat)
deriving DecidableEq, Repr

/-- Global state of the Image Puzzle.  The grid maps (row, col) to the tile
element held there; `timerActive` records whether the one-second interval is
scheduled. -/
structure PuzzleState where
  gridSize : Nat
  grid : Nat × Nat → Tile
  emptyTile : Nat × Nat
  moves : Nat
  timer : Nat
  gameRunning : Bool
  timerActive : Bool

/-- Function `createGrid`: every cell gets the image piece cut for its own
coordinates, except the bottom-right cell, which is created blank with the
`empty` class and recorded in `emptyTile`. -/
def puzzleCreateGrid (s : PuzzleState) : PuzzleState :=
  { s with
    grid := fun p =>
      if p.1 = s.gridSize - 1 ∧ p.2 = s.gridSize - 1 then
        { empty := true, content := none }
      else
        { empty := false, content := some p },
    emptyTile := (s.gridSize - 1, s.gridSize - 1) }

/-- Function `swapTiles`: move the clicked cell's inner markup into the cell
that held the `empty` class, transfer the `empty` class to the clicked cell,
and record the clicked cell as the new empty position.  The two `grid` array
writes in the source re-assign the elements already present and are
state-neutral. -/
def swapTiles (s : PuzzleState) (row col : Nat) : PuzzleState :=
  let p := (row, col)
  let e := s.emptyTile
  let c := (s.grid p).content
  { s with
    grid := fun q =>
      let t := s.grid q
      let t := if q = p then { t with content := none } else t
      let t := if q = e then { t with content := c } else t
      let t := if q = p then { t with empty := true } else t
      let t := if q = e then { t with empty := false } else t
      t,
    emptyTile := p }

/-- Adjacency test of `moveTile`: same row and columns differing by one, or
same column and rows differing by one. -/
def isAdjacent (p e : Nat × Nat) : Bool :=
  (decide (p.1 = e.1) && decide (((p.2 : Int) - (e.2 : Int)).natAbs = 1)) ||
  (decide (p.2 = e.2) && decide (((p.1 : Int) - (e.1 : Int)).natAbs = 1))

/-- Function `isPuzzleSolved`: the empty cell is bottom-right and every other
cell shows the piece cut for its own coordinates (cells without an inner image
div are skipped). -/
def isPuzzleSolved (s : PuzzleState) : Bool :=
  decide (s.emptyTile = (s.gridSize - 1, s.gridSize - 1)) &&
  (List.range s.gridSize).all (fun row =>
    (List.range s.gridSize).all (fun col =>
      if row = s.gridSize - 1 ∧ col = s.gridSize - 1 then true
      else
        match (s.grid (row, col)).content with
        | none => true
        | some bg => decide (bg = (row, col))))

/-- Function `gameComplete`: stop the timer and the session. -/
def puzzleGameComplete (s : PuzzleState) : PuzzleState :=
  { s with timerActive := false, gameRunning := false }

/-- Function `moveTile`: a click on a tile adjacent to the empty cell swaps it
in, counts the move, and ends the game when solved; any other click is
ignored. -/
def moveTile (s : PuzzleState) (row col : Nat) : PuzzleState :=
  if isAdjacent (row, col) s.emptyTile then
    let s1 := swapTiles s row col
    let s2 := { s1 with moves := s1.moves + 1 }
    if isPuzzleSolved s2 then puzzleGameComplete s2 else s2
  else s

/-- Function `getAdjacentTiles`: the up to four neighbours of the empty cell,
in the order top, right, bottom, left. -/
def getAdjacentTiles (s : PuzzleState) : List (Nat × Nat) :=
  let r := s.emptyTile.1
  let c := s.emptyTile.2
  (if 0 < r then [(r - 1, c)] else []) ++
  (if c < s.gridSize - 1 then [(r, c + 1)] else []) ++
  (if r < s.gridSize - 1 then [(r + 1, c)] else []) ++
  (if 0 < c then [(r, c - 1)] else [])

/-- One iteration of the shuffle loop of `shuffleGrid`: pick a random
neighbour of the empty cell and swap it in. -/
def shuffleStep (s : PuzzleState) (num den : Nat) : PuzzleState :=
  let adj := getAdjacentTiles s
  match adj.get? (randomIndex num den adj.length) with
  | some p => swapTiles s p.1 p.2
  | none => s

/-- Function `shuffleGrid`: apply `shuffleStep` once per supplied random draw
(the source draws `gridSize * gridSize * 10` times). -/
def shuffleGrid (s : PuzzleState) (draws : List (Nat × Nat)) : PuzzleState :=
  draws.foldl (fun t d => shuffleStep t d.1 d.2) s

/-- Function `resetGame` of the puzzle: stop the timer, zero moves and clock,
stop the session, and rebuild the solved grid. -/
def puzzleResetGame (s : PuzzleState) : PuzzleState :=
  puzzleCreateGrid
    { s with timerActive := false, moves := 0, timer := 0, gameRunning := false }

/-- Function `startGame` of the puzzle: a no-op while running, otherwise
reset, raise the running flag, rebuild and shuffle the grid, and start the
one-second timer. -/
def puzzleStartGame (s : PuzzleState) (draws : List (Nat × Nat)) : PuzzleState :=
  if s.gameRunning then s
  else
    let s1 := puzzleResetGame s
    let s2 := { s1 with gameRunning := true }
    let s3 := shuffleGrid (puzzleCreateGrid s2) draws
    { s3 with timerActive := true }

/-- The uniqueness invariant of the empty slot: the recorded empty position is
on the grid, and a cell carries the `empty` class exactly when it is the
recorded one. -/
def emptyUnique (s : PuzzleState) : Prop :=
  s.emptyTile.1 < s.gridSize ∧ s.emptyTile.2 < s.gridSize ∧
  ∀ p : Nat × Nat, p.1 < s.gridSize → p.2 < s.gridSize →
    ((s.grid p).empty = true ↔ p = s.emptyTile)

/-- A concrete stopped puzzle state on the default 4 by 4 grid. -/
def puzzleDemo : PuzzleState :=
  { gridSize := 4,
    grid := fun _ => { empty := false, content := none },
    emptyTile := (0, 0), moves := 0, timer := 0,
    gameRunning := false, timerActive := false }

/-! ## Endless Runner (src/js/runner.js)

Positions, sizes and speeds are JavaScript numbers; they are embedded as
rationals (`ℚ`), which carry the arithmetic the game performs (addition,
subtraction, halves) exactly.  The decorative cloud layer touches no game
rule (no collision, score or spawn logic reads it) and is not modelled. -/

/-- The player character. -/
structure Player where
  x : ℚ
  y : ℚ
  width : ℚ
  height : ℚ
  jumping : Bool
  jumpHeight : ℚ
  jumpVelocity : ℚ
  gravity : ℚ
deriving DecidableEq, Repr

/-- One obstacle. -/
structure Obstacle where
  x : ℚ
  y : ℚ
  width : ℚ
  height : ℚ
deriving DecidableEq, Repr

/-- Global state of the Endless Runner.  `ground` is `canvas.height - 50`;
`timerActive` records whether the 60 FPS interval is scheduled;
`storedHighScore` is the value persisted under `runnerHighScore`. -/
structure RunnerState where
  canvasWidth : ℚ
  ground : ℚ
  player : Player
  obstacles : List Obstacle
  score : Nat
  highScore : Nat
  storedHighScore : Nat
  gameRunning : Bool
  timerActive : Bool
  gameSpeed : ℚ
  spawnRate : Nat
  frameCount : Nat
deriving DecidableEq, Repr

/-- Function `jump`: grounded players get the initial upward velocity. -/
def jump (p : Player) : Player :=
  if !p.jumping then { p with jumping := true, jumpVelocity := -p.jumpHeight }
  else p

/-- Function `updatePlayer`: while jumping, add gravity to the velocity, add
the velocity to the vertical position, and on touching the ground clamp, zero
the velocity and clear the jumping flag.  A grounded player is untouched. -/
def updatePlayer (ground : ℚ) (p : Player) : Player :=
  if p.jumping then
    let v := p.jumpVelocity + p.gravity
    let y := p.y + v
    if ground - p.height ≤ y then
      { p with y := ground - p.height, jumping := false, jumpVelocity := 0 }
    else
      { p with y := y, jumpVelocity := v }
  else p

/-- Function `createObstacle`: random height
`Math.floor(Math.random() * 30) + 20`, placed at the right edge on the
ground. -/
def createObstacle (canvasWidth ground : ℚ) (num den : Nat) : Obstacle :=
  let height : Nat := num * 30 / den + 20
  { x := canvasWidth, y := ground - (height : ℚ),
    width := 20, height := (height : ℚ) }

/-- Function `updateObstacles`: every obstacle moves left by the game speed,
and the ones entirely off the left edge are removed, order preserved. -/
def updateObstacles (speed : ℚ) (obs : List Obstacle) : List Obstacle :=
  (obs.map (fun o => { o with x := o.x - speed })).filter
    (fun o => !decide (o.x + o.width < 0))

/-- The axis-aligned bounding-box test of `checkCollisions`. -/
def collides (p : Player) (o : Obstacle) : Bool :=
  decide (p.x < o.x + o.width) && decide (o.x < p.x + p.width) &&
  decide (p.y < o.y + o.height) && decide (o.y < p.y + p.height)

/-- Function `gameOver` of the runner: stop the interval and the session. -/
def runnerGameOver (s : RunnerState) : RunnerState :=
  { s with timerActive := false, gameRunning := false }

/-- Function `checkCollisions`: the game ends when the player overlaps any
obstacle. -/
def runnerCheckCollisions (s : RunnerState) : RunnerState :=
  if s.obstacles.any (collides s.player) then runnerGameOver s else s

/-- The 60 FPS interval callback `gameUpdate` of the runner: move the player
and the obstacles, count the frame, award a point every 10 frames (pushing the
high score through when strictly exceeded), speed up every 500 frames, spawn
an obstacle every `spawnRate` frames while tightening the spawn rate by 5 down
to the floor of 60, and finally test collisions.  It does not consult the
running flag.  `num` and `den` encode the random draw of the spawned
obstacle's height. -/
def runnerGameUpdate (s : RunnerState) (num den : Nat) : RunnerState :=
  let p := updatePlayer s.ground s.player
  let obs := updateObstacles s.gameSpeed s.obstacles
  let fc := s.frameCount + 1
  let sc := if fc % 10 = 0 then s.score + 1 else s.score
  let hs : Nat × Nat :=
    if fc % 10 = 0 ∧ s.highScore < sc then (sc, sc)
    else (s.highScore, s.storedHighScore)
  let speed := if fc % 500 = 0 then s.gameSpeed + 1/2 else s.gameSpeed
  let spawning := fc % s.spawnRate = 0
  let obs2 :=
    if spawning then obs ++ [createObstacle s.canvasWidth s.ground num den]
    else obs
  let rate := if spawning ∧ 60 < s.spawnRate then s.spawnRate - 5 else s.spawnRate
  runnerCheckCollisions
    { s with player := p, obstacles := obs2, frameCount := fc,
             score := sc, highScore := hs.1, storedHighScore := hs.2,
             gameSpeed := speed, spawnRate := rate }

/-- Function `startGame` of the runner: a no-op while running, otherwise put
the player on the ground, clear the obstacles, zero score and frame count,
restore the base speed (the spawn rate is not restored), and start the
interval. -/
def runnerStartGame (s : RunnerState) : RunnerState :=
  if s.gameRunning then s
  else
    let y0 := s.ground - s.player.height
    let p := { s.player with y := y0, jumping := false, jumpVelocity := 0 }
    { s with player := p,
             obstacles := [], score := 0, gameSpeed := 5, frameCount := 0,
             gameRunning := true, timerActive := true }

/-- Function `resetGame` of the runner: clear the interval, stop, zero the
score.  Spawn rate, speed, frame count, player and obstacles are left as they
were. -/
def runnerResetGame (s : RunnerState) : RunnerState :=
  { s with timerActive := false, gameRunning := false, score := 0 }

/-- A concrete player in mid-jump over the default 400-high canvas
(ground = 350). -/
def runnerDemoPlayer : Player :=
  { x := 50, y := 280, width := 40, height := 50,
    jumping := true, jumpHeight := 15, jumpVelocity := -15, gravity := 4/5 }

/-- A concrete player standing on the ground. -/
def runnerDemoGrounded : Player :=
  { x := 50, y := 300, width := 40, height := 50,
    jumping := false, jumpHeight := 15, jumpVelocity := 0, gravity := 4/5 }

/-- A concrete stopped runner state carrying a tightened spawn rate from an
earlier session. -/
def runnerDemoStopped : RunnerState :=
  { canvasWidth := 800, ground := 350, player := runnerDemoGrounded,
    obstacles := [], score := 0, highScore := 12, storedHighScore := 12,
    gameRunning := false, timerActive := false,
    gameSpeed := 13/2, spawnRate := 80, frameCount := 2345 }

/-- A concrete running Snake session with the head at (5, 5) moving right. -/
def snakeDemoRight : SnakeState :=
  { snake := [⟨5, 5⟩, ⟨4, 5⟩, ⟨3, 5⟩], food := ⟨20, 20⟩,
    direction := Dir.right, newDirection := Dir.right,
    gameRunning := true, score := 0, highScore := 0, storedHighScore := 0,
    timerActive := true, gridW := 40, gridH := 40 }

/-- A concrete running Snake session one step away from the food. -/
def snakeDemoEat : SnakeState :=
  { snakeDemoRunning with food := ⟨11, 10⟩ }

/-! ## Helper lemmas -/

theorem natDiv_eq_iff (m n k : Nat) (hm : 0 < m) :
    n / m = k ↔ m * k ≤ n ∧ n < m * k + m := by
  constructor
  · rintro rfl
    exact ⟨Nat.mul_div_le n m, by
      have h1 := Nat.div_add_mod n m
      have h2 := Nat.mod_lt n hm
      omega⟩
  · rintro ⟨h1, h2⟩
    exact Nat.div_eq_of_lt_le (by rw [Nat.mul_comm]; omega)
      (by rw [Nat.succ_mul, Nat.mul_comm]; omega)

/-- Counting lemma behind the uniformity of `Math.floor(Math.random() * c)`:
when the random numerator ranges over `c * m` equally likely values, every
outcome `k < c` is hit by exactly `m` numerators. -/
theorem count_scaled_fiber (c m k : Nat) (hm : 0 < m) (hk : k < c) :
    ((Finset.range (c * m)).filter (fun x => x * c / (c * m) = k)).card = m := by
  have hc : 0 < c := by omega
  have key : ∀ x : Nat, x * c / (c * m) = x / m := by
    intro x
    rw [Nat.mul_comm c m, Nat.mul_div_mul_right _ _ hc]
  have hstep : m * (k + 1) ≤ m * c := Nat.mul_le_mul_left m (by omega)
  have hsucc : m * (k + 1) = m * k + m := Nat.mul_succ m k
  have hset : (Finset.range (c * m)).filter (fun x => x * c / (c * m) = k)
      = Finset.Ico (m * k) (m * k + m) := by
    ext x
    simp only [Finset.mem_filter, Finset.mem_range, Finset.mem_Ico, key]
    constructor
    · rintro ⟨hx, hdiv⟩
      have := (natDiv_eq_iff m x k hm).mp hdiv
      omega
    · rintro ⟨h1, h2⟩
      refine ⟨?_, (natDiv_eq_iff m x k hm).mpr (by omega)⟩
      have : x < m * c := by omega
      calc x < m * c := this
        _ = c * m := Nat.mul_comm m c
  rw [hset, Nat.card_Ico]
  omega

theorem randomIndex_lt (num den len : Nat) (h : num < den) (hlen : 0 < len) :
    randomIndex num den len < len := by
  unfold randomIndex
  have hden : 0 < den := by omega
  rw [Nat.div_lt_iff_lt_mul hden]
  calc num * len < den * len := (Nat.mul_lt_mul_right hlen).mpr h
    _ = len * den := Nat.mul_comm _ _

theorem changeDirection_direction (k : Key) (s : SnakeState) :
    (changeDirection k s).direction = s.direction := by
  unfold changeDirection
  split_ifs <;> rfl

theorem changeDirection_fields (k : Key) (s : SnakeState) :
    (changeDirection k s).snake = s.snake ∧
    (changeDirection k s).food = s.food ∧
    (changeDirection k s).gameRunning = s.gameRunning := by
  unfold changeDirection
  split_ifs <;> exact ⟨rfl, rfl, rfl⟩

theorem whackMole_step (s : WhackState) (i : Nat) :
    (whackMole s i).score = s.score + 1 ∧
    (whackMole s i).highScore =
      (if s.highScore < s.score + 1 then s.score + 1 else s.highScore) ∧
    (whackMole s i).storedHighScore =
      (if s.highScore < s.score + 1 then s.score + 1 else s.storedHighScore) := by
  by_cases h : s.highScore < s.score + 1 <;>
    simp [whackMole, h]

theorem whackRun_spec (idxs : List Nat) (s : WhackState)
    (hle : s.score ≤ s.highScore) (heq : s.highScore = s.storedHighScore) :
    (whackRun s idxs).score = s.score + idxs.length ∧
    (whackRun s idxs).highScore = max s.highScore (s.score + idxs.length) ∧
    (whackRun s idxs).storedHighScore = (whackRun s idxs).highScore := by
  induction idxs generalizing s with
  | nil =>
    refine ⟨rfl, ?_, heq.symm⟩
    rw [List.length_nil, Nat.add_zero]
    exact (Nat.max_eq_left hle).symm
  | cons i rest ih =>
    have hw := whackMole_step s i
    have hrun : whackRun s (i :: rest) = whackRun (whackMole s i) rest := rfl
    rw [hrun]
    by_cases hcase : s.highScore < s.score + 1
    · have h1 : (whackMole s i).score = s.score + 1 := hw.1
      have h2 : (whackMole s i).highScore = s.score + 1 := by
        rw [hw.2.1, if_pos hcase]
      have h3 : (whackMole s i).storedHighScore = s.score + 1 := by
        rw [hw.2.2, if_pos hcase]
      have hih := ih (whackMole s i) (by omega) (by omega)
      refine ⟨?_, ?_, hih.2.2⟩
      · rw [hih.1, h1, List.length_cons]
        omega
      · rw [hih.2.1, h1, h2, List.length_cons,
          Nat.max_eq_right (by omega : s.score + 1 ≤ s.score + 1 + rest.length),
          Nat.max_eq_right (by omega : s.highScore ≤ s.score + (rest.length + 1))]
        omega
    · have h1 : (whackMole s i).score = s.score + 1 := hw.1
      have h2 : (whackMole s i).highScore = s.highScore := by
        rw [hw.2.1, if_neg hcase]
      have h3 : (whackMole s i).storedHighScore = s.storedHighScore := by
        rw [hw.2.2, if_neg hcase]
      have hih := ih (whackMole s i) (by omega) (by omega)
      refine ⟨?_, ?_, hih.2.2⟩
      · rw [hih.1, h1, List.length_cons]
        omega
      · rw [hih.2.1, h1, h2, List.length_cons]
        have he : s.score + 1 + rest.length = s.score + (rest.length + 1) := by omega
        rw [he]

theorem createFood_spec (cands snake : List Pos) (f : Pos)
    (hf : createFood cands snake = some f) : f ∉ snake ∧ f ∈ cands := by
  have h1 := List.find?_some hf
  have h2 := List.mem_of_find?_eq_some hf
  refine ⟨?_, h2⟩
  intro hmem
  simp only [Bool.not_eq_true', List.any_eq_false, decide_eq_true_eq] at h1
  exact h1 f hmem rfl

theorem createFood_isSome (cands snake : List Pos)
    (h : ∃ c ∈ cands, c ∉ snake) : (createFood cands snake).isSome := by
  rw [createFood, List.find?_isSome]
  obtain ⟨c, hc, hn⟩ := h
  refine ⟨c, hc, ?_⟩
  simp only [Bool.not_eq_true', List.any_eq_false, decide_eq_true_eq]
  intro seg hseg he
  exact hn (he ▸ hseg)

theorem swapTiles_emptyUnique (s : PuzzleState) (row col : Nat)
    (h : emptyUnique s) (hr : row < s.gridSize) (hc : col < s.gridSize)
    (hne : (row, col) ≠ s.emptyTile) : emptyUnique (swapTiles s row col) := by
  obtain ⟨h1, h2, h3⟩ := h
  refine ⟨hr, hc, ?_⟩
  intro p hp1 hp2
  simp only [swapTiles]
  by_cases hpp : p = (row, col)
  · simp [hpp, hne]
  · by_cases hpe : p = s.emptyTile
    · simp [hpp, hpe]
      exact fun he => hne he.symm
    · simp only [hpp, hpe, if_false, if_neg]
      rw [h3 p hp1 hp2]
      simp [hpp, hpe]

theorem getAdjacentTiles_spec (s : PuzzleState)
    (h1 : s.emptyTile.1 < s.gridSize) (h2 : s.emptyTile.2 < s.gridSize) :
    ∀ p ∈ getAdjacentTiles s,
      p.1 < s.gridSize ∧ p.2 < s.gridSize ∧ p ≠ s.emptyTile := by
  have hmem : ∀ (cond : Prop) (inst : Decidable cond) (q p : Nat × Nat),
      p ∈ (if cond then [q] else []) → cond ∧ p = q := by
    intro cond inst q p hq
    split at hq
    · simp only [List.mem_singleton] at hq
      exact ⟨by assumption, hq⟩
    · simp at hq
  intro p hp
  unfold getAdjacentTiles at hp
  simp only [List.mem_append] at hp
  rcases hp with ((hp | hp) | hp) | hp
  · obtain ⟨hcond, rfl⟩ := hmem _ _ _ _ hp
    refine ⟨by omega, h2, ?_⟩
    intro heq
    rw [Prod.ext_iff] at heq
    have := heq.1
    simp only at this
    omega
  · obtain ⟨hcond, rfl⟩ := hmem _ _ _ _ hp
    refine ⟨h1, by omega, ?_⟩
    intro heq
    rw [Prod.ext_iff] at heq
    have := heq.2
    simp only at this
    omega
  · obtain ⟨hcond, rfl⟩ := hmem _ _ _ _ hp
    refine ⟨by omega, h2, ?_⟩
    intro heq
    rw [Prod.ext_iff] at heq
    have := heq.1
    simp only at this
    omega
  · obtain ⟨hcond, rfl⟩ := hmem _ _ _ _ hp
    refine ⟨h1, by omega, ?_⟩
    intro heq
    rw [Prod.ext_iff] at heq
    have := heq.2
    simp only at this
    omega

theorem shuffleStep_emptyUnique (s : PuzzleState) (num den : Nat)
    (h : emptyUnique s) : emptyUnique (shuffleStep s num den) := by
  unfold shuffleStep
  dsimp only
  rcases hget : (getAdjacentTiles s).get?
      (randomIndex num den (getAdjacentTiles s).length) with _ | p
  · exact h
  · have hp : p ∈ getAdjacentTiles s := List.get?_mem hget
    obtain ⟨hb1, hb2, hbne⟩ := getAdjacentTiles_spec s h.1 h.2.1 p hp
    exact swapTiles_emptyUnique s p.1 p.2 h hb1 hb2 hbne

theorem moveTile_emptyUnique (s : PuzzleState) (row col : Nat)
    (h : emptyUnique s) (hr : row < s.gridSize) (hc : col < s.gridSize) :
    emptyUnique (moveTile s row col) := by
  unfold moveTile
  dsimp only
  by_cases hadj : isAdjacent (row, col) s.emptyTile = true
  · have hne : (row, col) ≠ s.emptyTile := by
      intro he
      rw [he] at hadj
      simp [isAdjacent] at hadj
    have hswap := swapTiles_emptyUnique s row col h hr hc hne
    rw [if_pos hadj]
    split
    · exact hswap
    · exact hswap
  · rw [if_neg hadj]
    exact h

theorem shuffleGrid_emptyUnique (s : PuzzleState) (draws : List (Nat × Nat))
    (h : emptyUnique s) : emptyUnique (shuffleGrid s draws) := by
  induction draws generalizing s with
  | nil => exact h
  | cons d rest ih => exact ih _ (shuffleStep_emptyUnique s d.1 d.2 h)

theorem createGrid_emptyUnique (s : PuzzleState) (hn : 1 ≤ s.gridSize) :
    emptyUnique (puzzleCreateGrid s) := by
  refine ⟨by show s.gridSize - 1 < s.gridSize; omega,
    by show s.gridSize - 1 < s.gridSize; omega, ?_⟩
  intro p hp1 hp2
  show (if p.1 = s.gridSize - 1 ∧ p.2 = s.gridSize - 1 then
      ({ empty := true, content := none } : Tile)
    else { empty := false, content := some p }).empty = true
    ↔ p = (s.gridSize - 1, s.gridSize - 1)
  split_ifs with hcond
  · simp [Prod.ext_iff, hcond]
  · simp only [Bool.false_eq_true, false_iff]
    intro heq
    rw [Prod.ext_iff] at heq
    exact hcond ⟨heq.1, heq.2⟩

theorem snakeGameUpdate_collision (s : SnakeState) (cands : List Pos)
    (hd : Pos) (tl : List Pos) (hsn : s.snake = hd :: tl)
    (hcol : checkCollision { s with direction := s.newDirection }
      (stepHead s.newDirection hd) = true) :
    snakeGameUpdate s cands =
      some (snakeGameOver { s with direction := s.newDirection }) := by
  unfold snakeGameUpdate
  dsimp only
  rw [hsn] at hcol ⊢
  dsimp only
  rw [if_pos hcol]

theorem snakeGameUpdate_eat (s : SnakeState) (cands : List Pos)
    (hd : Pos) (tl : List Pos) (hsn : s.snake = hd :: tl)
    (hcol : checkCollision { s with direction := s.newDirection }
      (stepHead s.newDirection hd) = false)
    (heat : stepHead s.newDirection hd = s.food) :
    snakeGameUpdate s cands =
      (createFood cands (stepHead s.newDirection hd :: s.snake)).map (fun f =>
        { s with direction := s.newDirection,
                 snake := stepHead s.newDirection hd :: s.snake,
                 score := s.score + 1,
                 highScore :=
                   if s.highScore < s.score + 1 then s.score + 1 else s.highScore,
                 storedHighScore :=
                   if s.highScore < s.score + 1 then s.score + 1
                   else s.storedHighScore,
                 food := f }) := by
  unfold snakeGameUpdate
  dsimp only
  rw [hsn] at hcol ⊢
  dsimp only
  rw [hcol]
  simp only [Bool.false_eq_true, if_false]
  rw [if_pos heat]
  by_cases hc : s.highScore < s.score + 1 <;> simp [hc]

theorem snakeGameUpdate_move (s : SnakeState) (cands : List Pos)
    (hd : Pos) (tl : List Pos) (hsn : s.snake = hd :: tl)
    (hcol : checkCollision { s with direction := s.newDirection }
      (stepHead s.newDirection hd) = false)
    (hne : stepHead s.newDirection hd ≠ s.food) :
    snakeGameUpdate s cands =
      some
        { s with
          direction := s.newDirection,
          snake := (stepHead s.newDirection hd :: s.snake).dropLast } := by
  unfold snakeGameUpdate
  dsimp only
  rw [hsn] at hcol ⊢
  dsimp only
  rw [hcol]
  simp only [Bool.false_eq_true, if_false]
  rw [if_neg hne]

theorem runnerCheckCollisions_spawnRate (s : RunnerState) :
    (runnerCheckCollisions s).spawnRate = s.spawnRate := by
  unfold runnerCheckCollisions runnerGameOver
  split <;> rfl

theorem runnerGameUpdate_spawnRate (s : RunnerState) (num den : Nat) :
    (runnerGameUpdate s num den).spawnRate =
      if (s.frameCount + 1) % s.spawnRate = 0 ∧ 60 < s.spawnRate
      then s.spawnRate - 5 else s.spawnRate := by
  unfold runnerGameUpdate
  dsimp only
  rw [runnerCheckCollisions_spawnRate]

/-! ## Claim theorems -/

/-- C1 (counterexample): the Snake tick callback does not check the running
flag: invoking it on the state left by `resetGame` (running flag down) still
advances the snake, so a stale callback firing post-reset does mutate the
entity positions. -/
theorem snake_stale_tick_mutates_after_reset :
    (snakeResetGame snakeDemoRunning).gameRunning = false ∧
    snakeGameUpdate (snakeResetGame snakeDemoRunning) [] =
      some { snakeResetGame snakeDemoRunning with
             snake := [⟨11, 10⟩, ⟨10, 10⟩, ⟨9, 10⟩] } ∧
    (snakeResetGame snakeDemoRunning).snake ≠
      [⟨11, 10⟩, ⟨10, 10⟩, ⟨9, 10⟩] := by decide

/-- C1 (amended): only the Whack-a-Mole mole timer callback guards on the
running flag: invoking it on a stopped session changes nothing.  The Snake
and Runner tick callbacks (and the Whack-a-Mole countdown) have no such
guard, and a stale tick callback does mutate state (see the counterexample);
post-reset quiescence relies on the timers being cleared by `reset`. -/
theorem mole_timer_callback_noop_when_stopped (s : WhackState) (num den : Nat)
    (h : s.gameRunning = false) : moleTimerCallback s num den = s := by
  simp [moleTimerCallback, h]

/-- C1 (witness): the mole timer callback fired on a freshly reset session is
a no-op. -/
theorem mole_timer_callback_noop_when_stopped_witness :
    moleTimerCallback (whackResetGame whackDemoRunning) 3 7 =
      whackResetGame whackDemoRunning :=
  mole_timer_callback_noop_when_stopped _ 3 7 (by decide)

/-- C4 (counterexample): a stored string that does not parse as a decimal
integer is not loaded as the integer 0: `"abc" || 0` keeps the truthy string
`"abc"` verbatim. -/
theorem load_high_score_malformed_counterexample :
    isDecimalNat "abc" = false ∧
    loadHighScore (some "abc") ≠ JSValue.num 0 ∧
    loadHighScore (some "abc") = JSValue.str "abc" := by
  refine ⟨by decide, ?_, rfl⟩
  decide

/-- C4 (amended): loading the persisted high score returns the integer 0 when
the stored value is absent or the empty string; every other stored string,
malformed ones included, is kept verbatim as a string rather than replaced
by 0. -/
theorem load_high_score_amended (s : String) :
    loadHighScore none = JSValue.num 0 ∧
    loadHighScore (some "") = JSValue.num 0 ∧
    (s ≠ "" → loadHighScore (some s) = JSValue.str s) := by
  refine ⟨rfl, rfl, fun h => ?_⟩
  simp [loadHighScore, h]

/-- C4 (witness): the malformed stored string of the counterexample is kept
verbatim. -/
theorem load_high_score_amended_witness :
    ("abc" : String) ≠ "" ∧ loadHighScore (some "abc") = JSValue.str "abc" :=
  ⟨by decide, (load_high_score_amended "abc").2.2 (by decide)⟩

/-- C7: while the jumping flag is set, `updatePlayer` adds gravity to the jump
velocity and the velocity to the vertical position; when the result reaches or
passes the ground the position is clamped to ground minus height, the velocity
is zeroed and the flag cleared; a player that is not jumping is unchanged. -/
theorem runner_update_player_gravity (g : ℚ) (p : Player) :
    (p.jumping = false → updatePlayer g p = p) ∧
    (p.jumping = true →
      (g - p.height ≤ p.y + (p.jumpVelocity + p.gravity) →
        updatePlayer g p =
          { p with y := g - p.height, jumping := false, jumpVelocity := 0 }) ∧
      (p.y + (p.jumpVelocity + p.gravity) < g - p.height →
        updatePlayer g p =
          { p with y := p.y + (p.jumpVelocity + p.gravity),
                   jumpVelocity := p.jumpVelocity + p.gravity })) := by
  constructor
  · intro h
    simp [updatePlayer, h]
  · intro h
    constructor
    · intro hle
      simp [updatePlayer, h, hle]
    · intro hlt
      simp [updatePlayer, h, not_le.mpr hlt]

/-- C7 (witness): one airborne step of the demo player, and invariance of a
grounded player. -/
theorem runner_update_player_gravity_witness :
    updatePlayer 350 runnerDemoPlayer =
      { runnerDemoPlayer with y := 1329/5, jumpVelocity := -71/5 } ∧
    updatePlayer 350 runnerDemoGrounded = runnerDemoGrounded := by
  constructor
  · have h := ((runner_update_player_gravity 350 runnerDemoPlayer).2 rfl).2
      (by norm_num [runnerDemoPlayer])
    rw [h]
    norm_num [runnerDemoPlayer]
  · exact (runner_update_player_gravity 350 runnerDemoGrounded).1 rfl

/-- C9: in every game, `startGame` while a session runs is a no-op (the state,
including the scheduled-timer flags, is returned unchanged, so no second
timer starts), and `resetGame` on a stopped session still clears the score
and timer values. -/
theorem session_controls_idempotent :
    (∀ (s : WhackState) (num den : Nat), s.gameRunning = true →
      whackStartGame s num den = s) ∧
    (∀ s : WhackState, s.gameRunning = false →
      (whackResetGame s).score = 0 ∧ (whackResetGame s).timeLeft = 30 ∧
      (whackResetGame s).gameTimerActive = false ∧
      (whackResetGame s).moleTimerActive = false) ∧
    (∀ (s : PuzzleState) (draws : List (Nat × Nat)), s.gameRunning = true →
      puzzleStartGame s draws = s) ∧
    (∀ s : PuzzleState, s.gameRunning = false →
      (puzzleResetGame s).moves = 0 ∧ (puzzleResetGame s).timer = 0 ∧
      (puzzleResetGame s).timerActive = false) ∧
    (∀ (s : SnakeState) (cands : List Pos), s.gameRunning = true →
      snakeStartGame s cands = some s) ∧
    (∀ s : SnakeState, s.gameRunning = false →
      (snakeResetGame s).score = 0 ∧ (snakeResetGame s).timerActive = false) ∧
    (∀ s : RunnerState, s.gameRunning = true → runnerStartGame s = s) ∧
    (∀ s : RunnerState, s.gameRunning = false →
      (runnerResetGame s).score = 0 ∧ (runnerResetGame s).timerActive = false) := by
  refine ⟨?_, ?_, ?_, ?_, ?_, ?_, ?_, ?_⟩
  · intro s num den h
    simp [whackStartGame, h]
  · intro s _
    exact ⟨rfl, rfl, rfl, rfl⟩
  · intro s draws h
    simp [puzzleStartGame, h]
  · intro s _
    exact ⟨rfl, rfl, rfl⟩
  · intro s cands h
    simp [snakeStartGame, h]
  · intro s _
    exact ⟨rfl, rfl⟩
  · intro s h
    simp [runnerStartGame, h]
  · intro s _
    exact ⟨rfl, rfl⟩

/-- C9 (witness): the controls evaluated on concrete sessions. -/
theorem session_controls_idempotent_witness :
    whackStartGame whackDemoRunning 3 7 = whackDemoRunning ∧
    (whackResetGame (whackEndGame whackDemoRunning)).score = 0 ∧
    runnerStartGame { runnerDemoStopped with gameRunning := true } =
      { runnerDemoStopped with gameRunning := true } := by
  refine ⟨?_, ?_, ?_⟩
  · exact session_controls_idempotent.1 whackDemoRunning 3 7 (by decide)
  · exact (session_controls_idempotent.2.1 (whackEndGame whackDemoRunning)
      (by decide)).1
  · exact session_controls_idempotent.2.2.2.2.2.2.1
      { runnerDemoStopped with gameRunning := true } (by decide)

/-- C10: `startGame` of the runner resets score, speed, frame count, player
and obstacles but not the spawn rate; `resetGame` resets neither spawn rate
nor speed nor frame count; and the tick never raises the spawn rate, keeping
it at least 60 (and a multiple of 5, as every reachable value is) — so a new
session begins with the spawn rate the previous session reached, not with
the initial 100. -/
theorem runner_spawn_rate_carryover (s : RunnerState) (num den : Nat) :
    (s.gameRunning = false →
      (runnerStartGame s).spawnRate = s.spawnRate ∧
      (runnerStartGame s).score = 0 ∧
      (runnerStartGame s).gameSpeed = 5 ∧
      (runnerStartGame s).frameCount = 0 ∧
      (runnerStartGame s).obstacles = [] ∧
      (runnerStartGame s).player.jumping = false ∧
      (runnerStartGame s).player.jumpVelocity = 0 ∧
      (runnerStartGame s).player.y = s.ground - s.player.height) ∧
    ((runnerResetGame s).spawnRate = s.spawnRate ∧
     (runnerResetGame s).gameSpeed = s.gameSpeed ∧
     (runnerResetGame s).frameCount = s.frameCount) ∧
    ((runnerGameUpdate s num den).spawnRate ≤ s.spawnRate) ∧
    (60 ≤ s.spawnRate → 5 ∣ s.spawnRate →
      60 ≤ (runnerGameUpdate s num den).spawnRate ∧
      5 ∣ (runnerGameUpdate s num den).spawnRate) := by
  refine ⟨?_, ⟨rfl, rfl, rfl⟩, ?_, ?_⟩
  · intro h
    simp [runnerStartGame, h]
  · rw [runnerGameUpdate_spawnRate]
    split_ifs <;> omega
  · intro h60 h5
    rw [runnerGameUpdate_spawnRate]
    split_ifs with hcond
    · omega
    · exact ⟨h60, h5⟩

/-- C10 (witness): a stopped session with spawn rate 80 starts again at 80,
and one tick at a spawn frame keeps the rate at least 60. -/
theorem runner_spawn_rate_carryover_witness :
    (runnerStartGame runnerDemoStopped).spawnRate = 80 ∧
    60 ≤ (runnerGameUpdate { runnerDemoStopped with frameCount := 79 } 0 1).spawnRate := by
  constructor
  · have h := ((runner_spawn_rate_carryover runnerDemoStopped 0 1).1 rfl).1
    rw [h]
    rfl
  · exact ((runner_spawn_rate_carryover _ 0 1).2.2.2 (by decide) (by decide)).1

/-- C3: the persisted high score is written only when the current score
strictly exceeds the stored value, and after a session the persisted value
equals max(previous stored value, final score): shown for a whole
Whack-a-Mole run of successful whacks (with `endGame` leaving the stored
value alone) and per tick for Snake. -/
theorem high_score_persists_max (s : WhackState) (idxs : List Nat)
    (t t' : SnakeState) (cands : List Pos) :
    (s.score = 0 → s.highScore = s.storedHighScore →
      (whackRun s idxs).score = idxs.length ∧
      (whackRun s idxs).storedHighScore = max s.storedHighScore idxs.length) ∧
    (∀ idx, (whackMole s idx).storedHighScore ≠ s.storedHighScore →
      s.highScore < s.score + 1 ∧
      (whackMole s idx).storedHighScore = s.score + 1) ∧
    ((whackEndGame s).storedHighScore = s.storedHighScore) ∧
    (t.score ≤ t.highScore → t.highScore = t.storedHighScore →
      snakeGameUpdate t cands = some t' →
      t'.score ≤ t'.highScore ∧ t'.highScore = t'.storedHighScore ∧
      t'.storedHighScore = max t.storedHighScore t'.score) := by
  refine ⟨?_, ?_, rfl, ?_⟩
  · intro h0 heq
    have hr := whackRun_spec idxs s (by omega) heq
    refine ⟨by rw [hr.1, h0, Nat.zero_add], ?_⟩
    rw [hr.2.2, hr.2.1, h0, heq, Nat.zero_add]
  · intro idx hne
    have hw := whackMole_step s idx
    by_cases hcase : s.highScore < s.score + 1
    · exact ⟨hcase, by rw [hw.2.2, if_pos hcase]⟩
    · exact absurd (by rw [hw.2.2, if_neg hcase]) hne
  · intro hle heq hupd
    rcases hts : t.snake with _ | ⟨hd, tl⟩
    · unfold snakeGameUpdate at hupd
      dsimp only at hupd
      rw [hts] at hupd
      exact Option.noConfusion hupd
    by_cases hcol : checkCollision { t with direction := t.newDirection }
        (stepHead t.newDirection hd) = true
    · rw [snakeGameUpdate_collision t cands hd tl hts hcol] at hupd
      injection hupd with hupd
      subst hupd
      refine ⟨hle, heq, ?_⟩
      have : t.score ≤ t.storedHighScore := by omega
      exact (Nat.max_eq_left this).symm
    · rw [Bool.not_eq_true] at hcol
      by_cases heat : stepHead t.newDirection hd = t.food
      · rw [snakeGameUpdate_eat t cands hd tl hts hcol heat] at hupd
        rcases hcf : createFood cands (stepHead t.newDirection hd :: t.snake)
          with _ | f
        · rw [hcf] at hupd
          exact absurd hupd (by simp)
        · rw [hcf] at hupd
          simp only [Option.map_some', Option.some.injEq] at hupd
          subst hupd
          by_cases hc : t.highScore < t.score + 1
          · simp only [if_pos hc]
            refine ⟨le_refl _, by trivial, ?_⟩
            have : t.storedHighScore ≤ t.score + 1 := by omega
            exact (Nat.max_eq_right this).symm
          · simp only [if_neg hc]
            refine ⟨by omega, heq, ?_⟩
            have : t.score + 1 ≤ t.storedHighScore := by omega
            exact (Nat.max_eq_left this).symm
      · rw [snakeGameUpdate_move t cands hd tl hts hcol heat] at hupd
        injection hupd with hupd
        subst hupd
        refine ⟨hle, heq, ?_⟩
        have : t.score ≤ t.storedHighScore := by omega
        exact (Nat.max_eq_left this).symm

/-- C3 (witness): five whacks from a stored high score of 3 persist the
value 5. -/
theorem high_score_persists_max_witness :
    (whackRun whackDemoRunning [0, 1, 2, 3, 4]).storedHighScore = 5 := by
  have h := ((high_score_persists_max whackDemoRunning [0, 1, 2, 3, 4]
    snakeDemoRunning snakeDemoRunning []).1 rfl rfl).2
  rw [h]
  decide

/-- C6: when the next head cell equals the food cell (and no collision ends
the tick), the score is incremented, the tail is kept so the snake grows by
one segment, and the food is relocated by rejection sampling to a cell not
occupied by any segment of the grown snake — under the precondition that the
random draw stream contains a free cell (which is eventually certain when a
free cell exists), and landing on the grid when the draws do. -/
theorem snake_eat_grows_and_relocates_food (s : SnakeState) (cands : List Pos)
    (hd : Pos) (tl : List Pos) (hsn : s.snake = hd :: tl)
    (hcol : checkCollision { s with direction := s.newDirection }
      (stepHead s.newDirection hd) = false)
    (heat : stepHead s.newDirection hd = s.food)
    (hfree : ∃ c ∈ cands, c ∉ stepHead s.newDirection hd :: s.snake) :
    ∃ s', snakeGameUpdate s cands = some s' ∧
      s'.score = s.score + 1 ∧
      s'.snake = stepHead s.newDirection hd :: s.snake ∧
      s'.snake.length = s.snake.length + 1 ∧
      s'.food ∉ s'.snake ∧
      ((∀ c ∈ cands, inGrid s c) → inGrid s s'.food) := by
  have hsome := createFood_isSome cands (stepHead s.newDirection hd :: s.snake) hfree
  obtain ⟨f, hf⟩ := Option.isSome_iff_exists.mp hsome
  have hprop := createFood_spec cands (stepHead s.newDirection hd :: s.snake) f hf
  rw [snakeGameUpdate_eat s cands hd tl hsn hcol heat, hf, Option.map_some']
  refine ⟨_, rfl, rfl, rfl, rfl, hprop.1, ?_⟩
  intro hgrid
  exact hgrid f hprop.2

/-- C6 (witness): one tick of the demo session whose food lies one cell to
the right of the head. -/
theorem snake_eat_grows_and_relocates_food_witness :
    ∃ s', snakeGameUpdate snakeDemoEat [⟨0, 0⟩] = some s' ∧
      s'.score = snakeDemoEat.score + 1 ∧
      s'.snake = stepHead snakeDemoEat.newDirection ⟨10, 10⟩ :: snakeDemoEat.snake ∧
      s'.snake.length = snakeDemoEat.snake.length + 1 ∧
      s'.food ∉ s'.snake ∧
      ((∀ c ∈ ([⟨0, 0⟩] : List Pos), inGrid snakeDemoEat c) →
        inGrid snakeDemoEat s'.food) :=
  snake_eat_grows_and_relocates_food snakeDemoEat [⟨0, 0⟩] ⟨10, 10⟩
    [⟨9, 10⟩, ⟨8, 10⟩] rfl (by decide) (by decide)
    ⟨⟨0, 0⟩, by decide, by decide⟩

/-- C2 (counterexample): head at (5, 5) moving right, an up press then a down
press queued in the same tick window: the code lets the second press win —
the committed direction is down and the head moves to (5, 6) at the next
tick, not up as claimed. -/
theorem snake_first_input_wins_counterexample :
    (changeDirection Key.arrowDown
      (changeDirection Key.arrowUp snakeDemoRight)).newDirection = Dir.down ∧
    snakeGameUpdate
      (changeDirection Key.arrowDown (changeDirection Key.arrowUp snakeDemoRight)) [] =
      some
        { snakeDemoRight with
          direction := Dir.down, newDirection := Dir.down,
          snake := [⟨5, 6⟩, ⟨5, 5⟩, ⟨4, 5⟩] } ∧
    Dir.down ≠ Dir.up := by decide

/-- C2 (amended): each arrow press is validated against the current (not
queued) direction and overwrites the queued direction, so of several inputs
queued in one tick window the last valid one (not the first) takes effect at
the next tick; a press requesting the inverse of the current direction is a
no-op, and the next tick moves the head by the queued direction. -/
theorem snake_direction_queue_last_valid (s : SnakeState) (k1 k2 : Key)
    (d2 : Dir) (cands : List Pos) :
    (∀ k d, toDir k = some d → s.direction = d.opposite →
      changeDirection k s = s) ∧
    (toDir k2 = some d2 → s.direction ≠ d2.opposite →
      (changeDirection k2 (changeDirection k1 s)).newDirection = d2) ∧
    ((∀ d, toDir k2 = some d → s.direction = d.opposite) →
      changeDirection k2 (changeDirection k1 s) = changeDirection k1 s) ∧
    (∀ hd tl, s.snake = hd :: tl →
      checkCollision { s with direction := s.newDirection }
        (stepHead s.newDirection hd) = false →
      stepHead s.newDirection hd ≠ s.food →
      ∃ s', snakeGameUpdate s cands = some s' ∧
        s'.direction = s.newDirection ∧
        s'.snake.head? = some (stepHead s.newDirection hd)) := by
  have hu : (changeDirection k1 s).direction = s.direction :=
    changeDirection_direction k1 s
  refine ⟨?_, ?_, ?_, ?_⟩
  · intro k d hk hop
    cases k with
    | arrowUp =>
      simp only [toDir, Option.some.injEq] at hk
      subst hk
      simp only [Dir.opposite] at hop
      simp [changeDirection, hop]
    | arrowDown =>
      simp only [toDir, Option.some.injEq] at hk
      subst hk
      simp only [Dir.opposite] at hop
      simp [changeDirection, hop]
    | arrowLeft =>
      simp only [toDir, Option.some.injEq] at hk
      subst hk
      simp only [Dir.opposite] at hop
      simp [changeDirection, hop]
    | arrowRight =>
      simp only [toDir, Option.some.injEq] at hk
      subst hk
      simp only [Dir.opposite] at hop
      simp [changeDirection, hop]
    | other => exact Option.noConfusion hk
  · intro hk2 hne
    cases k2 with
    | arrowUp =>
      simp only [toDir, Option.some.injEq] at hk2
      subst hk2
      simp only [Dir.opposite] at hne
      set u := changeDirection k1 s with hudef
      simp [changeDirection, hu, hne]
    | arrowDown =>
      simp only [toDir, Option.some.injEq] at hk2
      subst hk2
      simp only [Dir.opposite] at hne
      set u := changeDirection k1 s with hudef
      simp [changeDirection, hu, hne]
    | arrowLeft =>
      simp only [toDir, Option.some.injEq] at hk2
      subst hk2
      simp only [Dir.opposite] at hne
      set u := changeDirection k1 s with hudef
      simp [changeDirection, hu, hne]
    | arrowRight =>
      simp only [toDir, Option.some.injEq] at hk2
      subst hk2
      simp only [Dir.opposite] at hne
      set u := changeDirection k1 s with hudef
      simp [changeDirection, hu, hne]
    | other => exact Option.noConfusion hk2
  · intro hinv
    cases k2 with
    | arrowUp =>
      have h := hinv Dir.up rfl
      simp only [Dir.opposite] at h
      set u := changeDirection k1 s with hudef
      simp [changeDirection, hu, h]
    | arrowDown =>
      have h := hinv Dir.down rfl
      simp only [Dir.opposite] at h
      set u := changeDirection k1 s with hudef
      simp [changeDirection, hu, h]
    | arrowLeft =>
      have h := hinv Dir.left rfl
      simp only [Dir.opposite] at h
      set u := changeDirection k1 s with hudef
      simp [changeDirection, hu, h]
    | arrowRight =>
      have h := hinv Dir.right rfl
      simp only [Dir.opposite] at h
      set u := changeDirection k1 s with hudef
      simp [changeDirection, hu, h]
    | other =>
      simp [changeDirection]
  · intro hd tl hsn hcol hne
    rw [snakeGameUpdate_move s cands hd tl hsn hcol hne]
    refine ⟨_, rfl, rfl, ?_⟩
    rw [hsn]
    rfl

/-- C2 (witness): a left press while moving right is a no-op, and of the
queued up-then-down pair the down press takes effect. -/
theorem snake_direction_queue_last_valid_witness :
    changeDirection Key.arrowLeft snakeDemoRight = snakeDemoRight ∧
    (changeDirection Key.arrowDown
      (changeDirection Key.arrowUp snakeDemoRight)).newDirection = Dir.down := by
  constructor
  · exact (snake_direction_queue_last_valid snakeDemoRight Key.other Key.other
      Dir.up []).1 Key.arrowLeft Dir.left rfl (by decide)
  · exact (snake_direction_queue_last_valid snakeDemoRight Key.arrowUp
      Key.arrowDown Dir.down []).2.1 rfl (by decide)

/-- C5: every activation duration drawn by `showRandomMole` lies in
[600 ms, 1500 ms), and the draw is uniform over that range (when the random
numerator ranges uniformly over a multiple of 900 values, every duration has
fibers of equal size); the drawn mole index lies in [0, 9) and is likewise
uniform over all 9 moles, the just-deactivated one included; and after
`showRandomMole` exactly the drawn mole is active, every other mole being
deactivated. -/
theorem whack_random_mole_uniform (num den : Nat) (h : num < den) :
    (600 ≤ randomTime num den ∧ randomTime num den < 1500) ∧
    (∀ m, den = 900 * m → ∀ t, 600 ≤ t → t < 1500 →
      ((Finset.range den).filter (fun x => randomTime x den = t)).card = m) ∧
    randomIndex num den 9 < 9 ∧
    (∀ m, den = 9 * m → ∀ i, i < 9 →
      ((Finset.range den).filter (fun x => randomIndex x den 9 = i)).card = m) ∧
    (∀ w : WhackState, w.moles.length = 9 → ∀ j, j < 9 →
      (showRandomMole w num den).moles.get? j =
        some { active := decide (j = randomIndex num den 9), whacked := false }) := by
  have hden : 0 < den := by omega
  refine ⟨⟨Nat.le_add_left 600 _, ?_⟩, ?_, ?_, ?_, ?_⟩
  · unfold randomTime
    have h900 : (1500 - 600 : Nat) = 900 := rfl
    rw [h900]
    have hlt : num * 900 / den < 900 := by
      rw [Nat.div_lt_iff_lt_mul hden]
      calc num * 900 < den * 900 := (Nat.mul_lt_mul_right (by norm_num)).mpr h
        _ = 900 * den := Nat.mul_comm _ _
    omega
  · intro m hm t ht1 ht2
    subst hm
    have hm0 : 0 < m := by omega
    have key : ∀ x, (randomTime x (900 * m) = t) ↔
        (x * 900 / (900 * m) = t - 600) := by
      intro x
      unfold randomTime
      have h900 : (1500 - 600 : Nat) = 900 := rfl
      rw [h900]
      set q := x * 900 / (900 * m) with hq
      omega
    calc ((Finset.range (900 * m)).filter
            (fun x => randomTime x (900 * m) = t)).card
        = ((Finset.range (900 * m)).filter
            (fun x => x * 900 / (900 * m) = t - 600)).card := by
          rw [Finset.filter_congr (fun x _ => key x)]
      _ = m := count_scaled_fiber 900 m (t - 600) hm0 (by omega)
  · exact randomIndex_lt num den 9 h (by norm_num)
  · intro m hm i hi
    subst hm
    have hm0 : 0 < m := by omega
    have := count_scaled_fiber 9 m i hm0 hi
    calc ((Finset.range (9 * m)).filter
            (fun x => randomIndex x (9 * m) 9 = i)).card
        = ((Finset.range (9 * m)).filter
            (fun x => x * 9 / (9 * m) = i)).card := by
          rw [Finset.filter_congr (fun x _ => by rw [randomIndex])]
      _ = m := this
  · intro w hw j hj
    unfold showRandomMole clearMoles
    dsimp only
    rw [hw]
    have hidx : randomIndex num den 9 < 9 := randomIndex_lt num den 9 h (by norm_num)
    have hlen : (w.moles.map
        (fun _ => ({ active := false, whacked := false } : Mole))).length = 9 := by
      rw [List.length_map, hw]
    by_cases hji : j = randomIndex num den 9
    · subst hji
      rw [List.get?_set_eq_of_lt _ (by rw [hlen]; exact hidx)]
      simp
    · rw [List.get?_set_ne _ _ (fun he => hji he.symm)]
      have hjl : j < w.moles.length := by rw [hw]; exact hj
      rw [List.get?_map, List.get?_eq_get hjl]
      simp [hji]

/-- C5 (witness): the draw at numerator 449 over denominator 900 gives a
duration in range, index draws lie below 9, and the mole state after
`showRandomMole` on the demo session is active exactly at the drawn index. -/
theorem whack_random_mole_uniform_witness :
    (600 ≤ randomTime 449 900 ∧ randomTime 449 900 < 1500) ∧
    ((Finset.range 900).filter (fun x => randomTime x 900 = 1023)).card = 1 ∧
    (showRandomMole whackDemoRunning 449 900).moles.get? 4 =
      some { active := true, whacked := false } := by
  have h := whack_random_mole_uniform 449 900 (by norm_num)
  refine ⟨h.1, ?_, ?_⟩
  · exact h.2.1 1 (by norm_num) 1023 (by norm_num) (by norm_num)
  · have h5 := h.2.2.2.2 whackDemoRunning (by decide) 4 (by norm_num)
    rw [h5]
    decide

/-- C8: at most one tile holds the empty-slot role: `createGrid` leaves
exactly one empty cell, recorded in `emptyTile`, and every swap — a legal
`moveTile` click or a `shuffleGrid` step — preserves the invariant that the
cell recorded in `emptyTile` is the unique cell carrying the `empty` class. -/
theorem puzzle_empty_tile_unique (s : PuzzleState) (row col num den : Nat)
    (draws : List (Nat × Nat)) :
    (1 ≤ s.gridSize → emptyUnique (puzzleCreateGrid s)) ∧
    (emptyUnique s → row < s.gridSize → col < s.gridSize →
      emptyUnique (moveTile s row col)) ∧
    (emptyUnique s → emptyUnique (shuffleStep s num den)) ∧
    (emptyUnique s → emptyUnique (shuffleGrid s draws)) :=
  ⟨createGrid_emptyUnique s,
   fun h hr hc => moveTile_emptyUnique s row col h hr hc,
   shuffleStep_emptyUnique s num den,
   shuffleGrid_emptyUnique s draws⟩

/-- C8 (witness): the invariant holds for the freshly created default 4 by 4
grid and is kept by the legal move at (3, 2). -/
theorem puzzle_empty_tile_unique_witness :
    emptyUnique (puzzleCreateGrid puzzleDemo) ∧
    emptyUnique (moveTile (puzzleCreateGrid puzzleDemo) 3 2) := by
  have h := (puzzle_empty_tile_unique puzzleDemo 3 2 0 1 []).1 (by decide)
  exact ⟨h, (puzzle_empty_tile_unique (puzzleCreateGrid puzzleDemo) 3 2 0 1
    []).2.1 h (by decide) (by decide)⟩

end GamingHub
